import Mathlib

/-!
Verification of the strobe-triggered payload transmission engine of the
`tmtc_test` repository (`tm_test_controlled.py` and `tm_test.py`).

The worker state, the three payload-derivation functions, the counter and
lane update, and the per-iteration control flow of `strobe_worker` are
embedded as executable Lean definitions.  Interactions with the outside
world (the event queue, the GPIO library, the serial port) are modelled as
per-iteration inputs describing what the environment did on that iteration.
-/

/-- The transmission mode, chosen once at startup
(`tm_test_controlled.py`, `get_user_mode`): one of byte0, scan, all. -/
inductive Mode where
  | byte0
  | scan
  | all
deriving DecidableEq, Repr

/-- `get_payload_byte0(val)` from tm_test_controlled.py line 52-53:
returns `val` unchanged. -/
def get_payload_byte0 (val : ℕ) : ℕ :=
  val

/-- `get_payload_scan(val, lane)` from tm_test_controlled.py line 55-56:
returns `val << (lane * 8)`. -/
def get_payload_scan (val lane : ℕ) : ℕ :=
  val <<< (lane * 8)

/-- `get_payload_all(val)` from tm_test_controlled.py line 58-59:
returns `val | (val << 8) | (val << 16) | (val << 24)`. -/
def get_payload_all (val : ℕ) : ℕ :=
  val ||| (val <<< 8) ||| (val <<< 16) ||| (val <<< 24)

/-- The mutable worker state of tm_test_controlled.py: the globals
`payload_value` (the Counter, starts at 1), `byte_lane_index` (the
LaneIndex, starts at 0) and `total_strobe_count` (starts at 0). -/
structure WState where
  payload_value : ℕ
  byte_lane_index : ℕ
  total_strobe_count : ℕ
deriving DecidableEq, Repr

/-- What `strobe_queue.get(timeout=0.5)` did on one worker iteration:
returned an event, raised `Empty` (timeout), raised the transient
RuntimeError whose text contains the marker `setup() the GPIO channel
first`, or raised a RuntimeError without that marker. -/
inductive QueueOutcome where
  | event
  | empty
  | gpioNotSetup
  | otherRuntime
deriving DecidableEq, Repr

/-- Environment behaviour for one iteration of the worker loop:
the queue outcome, whether a GPIO re-setup (if invoked) succeeds within
its retry budget, and whether `ser.write` completes without raising. -/
structure IterInput where
  outcome : QueueOutcome
  reinit_ok : Bool
  write_ok : Bool
deriving DecidableEq, Repr

/-- The ways an exception can propagate out of the worker loop body:
the re-raised RuntimeError (line 109 `raise`), the RuntimeError raised by
the GPIO setup routine after its retries are exhausted, an exception from
`ser.write`, and the OverflowError from `int.to_bytes` on a value that
does not fit in 4 bytes. -/
inductive Fault where
  | reraisedRuntime
  | setupExhausted
  | writeError
  | overflowError
deriving DecidableEq, Repr

/-- Python `v.to_bytes(len, byteorder='little')`: the little-endian byte
string of `v`, of length `len`; raises OverflowError (here: `none`) when
`v` does not fit. -/
def toBytesLittle (len v : ℕ) : Option (List ℕ) :=
  if v < 256 ^ len then some ((List.range len).map fun i => v / 256 ^ i % 256)
  else none

/-- The value of the little-endian byte list `bs` (first byte least
significant), used to state that a transmission encodes its payload. -/
def decodeLittle (bs : List ℕ) : ℕ :=
  bs.foldr (fun b acc => b + 256 * acc) 0

/-- The `val_32` computation of tm_test_controlled.py lines 114-120:
dispatch on MODE to one of the three payload functions, applied to the
current `payload_value` and (in scan mode) `byte_lane_index`. -/
def val32 (mode : Mode) (s : WState) : ℕ :=
  match mode with
  | Mode.byte0 => get_payload_byte0 s.payload_value
  | Mode.scan => get_payload_scan s.payload_value s.byte_lane_index
  | Mode.all => get_payload_all s.payload_value

/-- Lines 129-133 of tm_test_controlled.py: `payload_value += 1`; if it
exceeds 255 it is reset to 1 and, in scan mode only, `byte_lane_index`
advances by one modulo 4. -/
def advanceCounter (mode : Mode) (s : WState) : WState :=
  if s.payload_value + 1 > 255 then
    { s with
      payload_value := 1
      byte_lane_index :=
        if mode = Mode.scan then (s.byte_lane_index + 1) % 4
        else s.byte_lane_index }
  else { s with payload_value := s.payload_value + 1 }

/-- One iteration of the `strobe_worker` loop of tm_test_controlled.py
(lines 100-133).  On `Empty` the loop just continues; on the transient
GPIO RuntimeError it re-runs the GPIO setup and continues (or propagates
the setup failure if the retries are exhausted); any other RuntimeError
from the queue wait is re-raised.  On an event: `total_strobe_count` is
incremented, the 32-bit value is derived per mode, converted to 4
little-endian bytes and written to the serial port; then the counter (and
lane) advance.  The result is the new state together with the bytes
written this iteration, or the propagated fault. -/
def stepCtl (mode : Mode) (s : WState) (inp : IterInput) :
    Except Fault (WState × Option (List ℕ)) :=
  match inp.outcome with
  | QueueOutcome.empty => Except.ok (s, none)
  | QueueOutcome.gpioNotSetup =>
      if inp.reinit_ok then Except.ok (s, none)
      else Except.error Fault.setupExhausted
  | QueueOutcome.otherRuntime => Except.error Fault.reraisedRuntime
  | QueueOutcome.event =>
      let s1 := { s with total_strobe_count := s.total_strobe_count + 1 }
      match toBytesLittle 4 (val32 mode s1) with
      | none => Except.error Fault.overflowError
      | some data_bytes =>
          if inp.write_ok then Except.ok (advanceCounter mode s1, some data_bytes)
          else Except.error Fault.writeError

/-- Repeated iterations of the tm_test_controlled.py worker loop over a
list of per-iteration environment inputs, collecting every byte string
written; the first propagated fault aborts the run. -/
def runCtl (mode : Mode) (s : WState) :
    List IterInput → Except Fault (WState × List (List ℕ))
  | [] => Except.ok (s, [])
  | inp :: rest =>
      match stepCtl mode s inp with
      | Except.error f => Except.error f
      | Except.ok (s1, sent) =>
          match runCtl mode s1 rest with
          | Except.error f => Except.error f
          | Except.ok (s2, outs) => Except.ok (s2, sent.toList ++ outs)

/-- The mutable worker state of tm_test.py: the globals `payload_value`
(starts at 1) and `total_strobe_count` (starts at 0); no lane index. -/
structure SState where
  payload_value : ℕ
  total_strobe_count : ℕ
deriving DecidableEq, Repr

/-- One iteration of the `strobe_worker` loop of tm_test.py (lines
59-84): identical control flow to tm_test_controlled.py but the
transmitted value is always `payload_value` itself. -/
def stepSimple (s : SState) (inp : IterInput) :
    Except Fault (SState × Option (List ℕ)) :=
  match inp.outcome with
  | QueueOutcome.empty => Except.ok (s, none)
  | QueueOutcome.gpioNotSetup =>
      if inp.reinit_ok then Except.ok (s, none)
      else Except.error Fault.setupExhausted
  | QueueOutcome.otherRuntime => Except.error Fault.reraisedRuntime
  | QueueOutcome.event =>
      let s1 := { s with total_strobe_count := s.total_strobe_count + 1 }
      match toBytesLittle 4 s1.payload_value with
      | none => Except.error Fault.overflowError
      | some data_bytes =>
          if inp.write_ok then
            Except.ok
              ({ s1 with
                  payload_value :=
                    if s1.payload_value + 1 > 255 then 1
                    else s1.payload_value + 1 },
                some data_bytes)
          else Except.error Fault.writeError

/-- Repeated iterations of the tm_test.py worker loop. -/
def runSimple (s : SState) :
    List IterInput → Except Fault (SState × List (List ℕ))
  | [] => Except.ok (s, [])
  | inp :: rest =>
      match stepSimple s inp with
      | Except.error f => Except.error f
      | Except.ok (s1, sent) =>
          match runSimple s1 rest with
          | Except.error f => Except.error f
          | Except.ok (s2, outs) => Except.ok (s2, sent.toList ++ outs)

/-- Forgetting the lane index: the tm_test.py view of a
tm_test_controlled.py worker state. -/
def projState (s : WState) : SState :=
  ⟨s.payload_value, s.total_strobe_count⟩

/-- Modelled from the spec (§3 Counter, §8): the Counter update
parametric in MAX.  The code under src/ instantiates MAX = 255
(tm_test_controlled.py lines 129-131, tm_test.py lines 82-84); the
MAX = 0xFFFFFFFF (32-bit-cycling) configuration described by the spec
has no source file in src/, so its step is taken from the spec's words:
the counter increments and, after reaching MAX, wraps to 1. -/
def counterWrapStep (MAX c : ℕ) : ℕ :=
  if c + 1 > MAX then 1 else c + 1

/-- Whether a worker iteration result is a propagated (worker-terminating)
fault. -/
def isFatal (r : Except Fault (WState × Option (List ℕ))) : Bool :=
  match r with
  | Except.error _ => true
  | Except.ok _ => false

/-- A run result of the controlled worker, viewed through the tm_test.py
state (lane index forgotten, byte outputs kept). -/
def mapProj (r : Except Fault (WState × List (List ℕ))) :
    Except Fault (SState × List (List ℕ)) :=
  match r with
  | Except.error f => Except.error f
  | Except.ok (s, outs) => Except.ok (projState s, outs)

/-- Observable calls made by the GPIO setup routine on the GPIO library:
`GPIO.cleanup()`, `GPIO.setwarnings(False)`, `GPIO.setmode(GPIO.BCM)`,
one `GPIO.setup(...)` attempt (with its outcome), and `time.sleep` (delay
recorded in milliseconds; the source passes `retry_delay_s=0.05`). -/
inductive GpioAction where
  | cleanup
  | setwarnings
  | setmode
  | setupAttempt (ok : Bool)
  | sleep (delay_ms : ℕ)
deriving DecidableEq, Repr

/-- The retry loop of `initialize_gpio` (tm_test_controlled.py lines
40-48, tm_test.py lines 196-204): up to `r` further attempts starting at
attempt index `i`; `outcomes j` tells whether the j-th `GPIO.setup` call
succeeds.  On success the function returns at once; on failure it cleans
up, sleeps the fixed delay and re-enters setmode before the next attempt.
Returns the trace of GPIO-library actions and `some j` for success at
attempt `j`, or `none` when the loop ends and the RuntimeError is
raised. -/
def init_gpio_loop (outcomes : ℕ → Bool) : ℕ → ℕ → List GpioAction × Option ℕ
  | 0, _ => ([], none)
  | r + 1, i =>
      if outcomes i then ([GpioAction.setupAttempt true], some i)
      else
        let rest := init_gpio_loop outcomes r (i + 1)
        (GpioAction.setupAttempt false :: GpioAction.cleanup ::
          GpioAction.sleep 50 :: GpioAction.setmode :: rest.1, rest.2)

/-- `initialize_gpio(pin, retries, retry_delay_s=0.05)` of
tm_test_controlled.py lines 34-50: initial `cleanup_gpio()`,
`GPIO.setwarnings(False)`, `GPIO.setmode(GPIO.BCM)`, then the retry
loop. -/
def init_gpio (outcomes : ℕ → Bool) (retries : ℕ) : List GpioAction × Option ℕ :=
  let rest := init_gpio_loop outcomes retries 0
  (GpioAction.cleanup :: GpioAction.setwarnings :: GpioAction.setmode :: rest.1,
    rest.2)

set_option maxRecDepth 10000 in
lemma get_payload_all_eq (c : ℕ) (hc : c ≤ 255) :
    get_payload_all c = c + c * 256 + c * 65536 + c * 16777216 := by
  revert hc
  revert c
  decide

lemma get_payload_scan_testBit (c l i : ℕ) (hc : c ≤ 255)
    (hi : i < 8 * l ∨ 8 * l + 8 ≤ i) : (get_payload_scan c l).testBit i = false := by
  unfold get_payload_scan
  rw [Nat.testBit_shiftLeft]
  rcases hi with hlt | hge
  · have h : ¬ (i ≥ l * 8) := by omega
    simp [h]
  · have h8 : 8 ≤ i - l * 8 := by omega
    have hclt : c < 2 ^ (i - l * 8) :=
      lt_of_le_of_lt hc (lt_of_lt_of_le (by norm_num : (255:ℕ) < 2 ^ 8)
        (Nat.pow_le_pow_right (by norm_num) h8))
    simp [Nat.testBit_eq_false_of_lt hclt]

lemma val32_total_irrelevant (mode : Mode) (s : WState) (t : ℕ) :
    val32 mode { s with total_strobe_count := t } = val32 mode s := by
  cases mode <;> rfl

lemma val32_lt (mode : Mode) (s : WState) (hc : s.payload_value ≤ 255)
    (hl : s.byte_lane_index ≤ 3) : val32 mode s < 2 ^ 32 := by
  cases mode with
  | byte0 => exact lt_of_le_of_lt hc (by norm_num)
  | scan =>
      have h1 : val32 Mode.scan s = s.payload_value * 2 ^ (s.byte_lane_index * 8) := by
        simp [val32, get_payload_scan, Nat.shiftLeft_eq]
      rw [h1]
      calc s.payload_value * 2 ^ (s.byte_lane_index * 8)
          ≤ 255 * 2 ^ 24 :=
            Nat.mul_le_mul hc (Nat.pow_le_pow_right (by norm_num) (by omega))
        _ < 2 ^ 32 := by norm_num
  | all =>
      have h1 : val32 Mode.all s = get_payload_all s.payload_value := rfl
      rw [h1, get_payload_all_eq s.payload_value hc]
      have h32 : (2:ℕ) ^ 32 = 4294967296 := by norm_num
      rw [h32]
      omega

/-- C1: the payload derivation is a pure function of (counter, lane, mode):
for every counter in [1,255] and lane in [0,3], byte0 yields the counter
with all bits above bit 7 zero; scan yields the counter shifted into byte
lane `l` with all bits outside that lane zero; all replicates the counter
into all four byte lanes. -/
theorem C1_payload_pure_function (c l : ℕ) (hc1 : 1 ≤ c) (hc : c ≤ 255) (hl : l ≤ 3) :
    (get_payload_byte0 c = c ∧ ∀ i, 8 ≤ i → (get_payload_byte0 c).testBit i = false) ∧
    (get_payload_scan c l = c * 2 ^ (8 * l) ∧
      ∀ i, i < 8 * l ∨ 8 * l + 8 ≤ i → (get_payload_scan c l).testBit i = false) ∧
    get_payload_all c = c + c * 2 ^ 8 + c * 2 ^ 16 + c * 2 ^ 24 := by
  refine ⟨⟨rfl, fun i hi => ?_⟩, ⟨?_, fun i hi => get_payload_scan_testBit c l i hc hi⟩, ?_⟩
  · exact Nat.testBit_eq_false_of_lt (lt_of_le_of_lt hc
      (lt_of_lt_of_le (by norm_num : (255:ℕ) < 2 ^ 8)
        (Nat.pow_le_pow_right (by norm_num) hi)))
  · simp [get_payload_scan, Nat.shiftLeft_eq, Nat.mul_comm l 8]
  · rw [get_payload_all_eq c hc]
    norm_num

theorem C1_payload_pure_function_witness :
    get_payload_scan 7 2 = 7 * 2 ^ 16 ∧
    Nat.testBit (get_payload_scan 7 2) 3 = false ∧
    get_payload_all 7 = 7 + 7 * 2 ^ 8 + 7 * 2 ^ 16 + 7 * 2 ^ 24 := by
  have h := C1_payload_pure_function 7 2 (by norm_num) (by norm_num) (by norm_num)
  exact ⟨h.2.1.1, h.2.1.2 3 (by norm_num), h.2.2⟩

lemma toBytesLittle_eq_of_lt (v : ℕ) (hv : v < 2 ^ 32) :
    toBytesLittle 4 v =
      some [v % 256, v / 256 % 256, v / 65536 % 256, v / 16777216 % 256] := by
  have h4 : v < 4294967296 := by
    have h : (2:ℕ) ^ 32 = 4294967296 := by norm_num
    rw [h] at hv
    exact hv
  simp [toBytesLittle, h4, List.range_succ]

lemma decodeLittle_bytes (v : ℕ) (hv : v < 2 ^ 32) :
    decodeLittle [v % 256, v / 256 % 256, v / 65536 % 256, v / 16777216 % 256] = v := by
  have h32 : (2:ℕ) ^ 32 = 4294967296 := by norm_num
  rw [h32] at hv
  simp [decodeLittle]
  omega

lemma stepCtl_event_ok (mode : Mode) (s : WState) (inp : IterInput)
    (s1 : WState) (o : Option (List ℕ))
    (hout : inp.outcome = QueueOutcome.event)
    (h : stepCtl mode s inp = Except.ok (s1, o)) :
    inp.write_ok = true ∧ val32 mode s < 256 ^ 4 ∧
    s1 = advanceCounter mode { s with total_strobe_count := s.total_strobe_count + 1 } ∧
    o = some ((List.range 4).map fun i => val32 mode s / 256 ^ i % 256) := by
  have hval := val32_total_irrelevant mode s (s.total_strobe_count + 1)
  simp only [stepCtl, hout] at h
  rw [hval] at h
  by_cases hv : val32 mode s < 256 ^ 4
  · rw [toBytesLittle, if_pos hv] at h
    by_cases hw : inp.write_ok
    · simp only [hw, if_true] at h
      cases h
      exact ⟨hw, hv, rfl, rfl⟩
    · simp [hw] at h
  · rw [toBytesLittle, if_neg hv] at h
    simp at h

/-- C2: after the worker processes the event that makes the Counter equal
MAX, the next processed event yields Counter = 1 and never 0; the code
instantiates MAX = 255 (both workers), and the spec-modelled parametric
step also wraps 0xFFFFFFFF to 1 and never yields 0. -/
theorem C2_counter_wraparound :
    (∀ mode s, (advanceCounter mode s).payload_value = counterWrapStep 255 s.payload_value)
    ∧ (∀ mode s inp s1 o, s.payload_value = 255 → inp.outcome = QueueOutcome.event →
        stepCtl mode s inp = Except.ok (s1, o) → s1.payload_value = 1)
    ∧ (∀ s inp s1 o, s.payload_value = 255 → inp.outcome = QueueOutcome.event →
        stepSimple s inp = Except.ok (s1, o) → s1.payload_value = 1)
    ∧ counterWrapStep 255 255 = 1
    ∧ counterWrapStep 4294967295 4294967295 = 1
    ∧ (∀ MAX c, counterWrapStep MAX c ≠ 0) := by
  refine ⟨fun mode s => ?_, fun mode s inp s1 o hp hout h => ?_,
    fun s inp s1 o hp hout h => ?_, by decide, by decide, fun MAX c => ?_⟩
  · unfold advanceCounter counterWrapStep
    by_cases hgt : s.payload_value + 1 > 255 <;> simp [hgt]
  · obtain ⟨hw, hv, hs1, ho⟩ := stepCtl_event_ok mode s inp s1 o hout h
    subst hs1
    simp [advanceCounter, hp]
  · simp only [stepSimple, hout, hp] at h
    rw [show toBytesLittle 4 255 = some [255, 0, 0, 0] by decide] at h
    by_cases hw : inp.write_ok
    · simp only [hw, if_true] at h
      cases h
      simp
    · simp [hw] at h
  · unfold counterWrapStep
    split <;> omega

theorem C2_counter_wraparound_witness :
    WState.payload_value ⟨1, 0, 10⟩ = 1 :=
  C2_counter_wraparound.2.1 Mode.byte0 ⟨255, 0, 9⟩ ⟨QueueOutcome.event, true, true⟩
    ⟨1, 0, 10⟩ (some [255, 0, 0, 0]) rfl rfl rfl

set_option maxRecDepth 40000 in
lemma scan_cycle_255 :
    (runCtl Mode.scan ⟨1, 0, 0⟩ (List.replicate 255 ⟨QueueOutcome.event, true, true⟩)).map
      (fun p => p.1) = Except.ok ⟨1, 1, 255⟩ := rfl

/-- C3: the lane index advances by exactly 1 modulo 4 on precisely those
processed events where the Counter wraps from 255 back to 1 and only in
scan mode; on every other successful iteration, and in byte0 and all
modes, it is unchanged.  Starting a scan-mode cycle at Counter 1 and lane
0, the wrap (and the single lane advance) happens after 255 events. -/
theorem C3_lane_advancement :
    (∀ mode s inp s1 o, s.payload_value ≤ 255 →
        stepCtl mode s inp = Except.ok (s1, o) →
        s1.byte_lane_index =
          if mode = Mode.scan ∧ inp.outcome = QueueOutcome.event ∧ s.payload_value = 255
          then (s.byte_lane_index + 1) % 4 else s.byte_lane_index)
    ∧ (runCtl Mode.scan ⟨1, 0, 0⟩ (List.replicate 255 ⟨QueueOutcome.event, true, true⟩)).map
        (fun p => p.1) = Except.ok ⟨1, 1, 255⟩ := by
  constructor
  · intro mode s inp s1 o hc h
    cases houtcome : inp.outcome with
    | event =>
        obtain ⟨hw, hv, hs1, ho⟩ := stepCtl_event_ok mode s inp s1 o houtcome h
        subst hs1
        by_cases hp : s.payload_value = 255
        · simp [advanceCounter, hp, houtcome]
        · have hlt : ¬ (s.payload_value + 1 > 255) := by omega
          simp [advanceCounter, hlt, houtcome, hp]
    | empty =>
        simp only [stepCtl, houtcome] at h
        cases h
        simp [houtcome]
    | gpioNotSetup =>
        by_cases hr : inp.reinit_ok
        · simp only [stepCtl, houtcome, hr, if_true] at h
          cases h
          simp [houtcome]
        · simp [stepCtl, houtcome, hr] at h
    | otherRuntime => simp [stepCtl, houtcome] at h
  · exact scan_cycle_255

theorem C3_lane_advancement_witness :
    WState.byte_lane_index ⟨1, 3, 10⟩ =
      if Mode.scan = Mode.scan ∧ QueueOutcome.event = QueueOutcome.event ∧ 255 = 255
      then (2 + 1) % 4 else 2 :=
  C3_lane_advancement.1 Mode.scan ⟨255, 2, 9⟩ ⟨QueueOutcome.event, true, true⟩
    ⟨1, 3, 10⟩ (some [0, 0, 255, 0]) (by decide) rfl


lemma stepCtl_total (mode : Mode) (s : WState) (inp : IterInput)
    (s1 : WState) (o : Option (List ℕ))
    (h : stepCtl mode s inp = Except.ok (s1, o)) :
    s1.total_strobe_count =
      s.total_strobe_count + (if inp.outcome = QueueOutcome.event then 1 else 0) := by
  cases houtcome : inp.outcome with
  | event =>
      obtain ⟨hw, hv, hs1, ho⟩ := stepCtl_event_ok mode s inp s1 o houtcome h
      subst hs1
      unfold advanceCounter
      split <;> simp
  | empty =>
      simp only [stepCtl, houtcome] at h
      cases h
      simp
  | gpioNotSetup =>
      by_cases hr : inp.reinit_ok
      · simp only [stepCtl, houtcome, hr, if_true] at h
        cases h
        simp
      · simp [stepCtl, houtcome, hr] at h
  | otherRuntime => simp [stepCtl, houtcome] at h

lemma runCtl_total (mode : Mode) (inputs : List IterInput) :
    ∀ s s1 outs, runCtl mode s inputs = Except.ok (s1, outs) →
      s1.total_strobe_count =
        s.total_strobe_count +
          (inputs.filter fun inp => inp.outcome == QueueOutcome.event).length := by
  induction inputs with
  | nil =>
      intro s s1 outs h
      simp only [runCtl] at h
      cases h
      simp
  | cons inp rest ih =>
      intro s s1 outs h
      simp only [runCtl] at h
      split at h
      · cases h
      next s2 sent hstep =>
        split at h
        · cases h
        next s3 outs2 hrest =>
          cases h
          have ht := stepCtl_total mode s inp s2 sent hstep
          have hr := ih s2 s1 outs2 hrest
          rw [hr, ht]
          by_cases he : inp.outcome = QueueOutcome.event
          · simp [he, List.filter_cons]
            omega
          · simp [List.filter_cons, he]

/-- C4: the total strobe count grows by exactly one per consumed event
and is untouched by every other iteration, so over any successful run it
equals its initial value plus the number of dequeued events, independent
of Counter wraparound, and it is monotonically non-decreasing; a queue
timeout with no event leaves the whole state unchanged and transmits
nothing. -/
theorem C4_total_strobe_count :
    (∀ mode s inp s1 o, stepCtl mode s inp = Except.ok (s1, o) →
        s1.total_strobe_count =
          s.total_strobe_count + (if inp.outcome = QueueOutcome.event then 1 else 0)
        ∧ s.total_strobe_count ≤ s1.total_strobe_count)
    ∧ (∀ mode s inputs s1 outs, runCtl mode s inputs = Except.ok (s1, outs) →
        s1.total_strobe_count =
          s.total_strobe_count +
            (inputs.filter fun inp => inp.outcome == QueueOutcome.event).length)
    ∧ (∀ mode s r w, stepCtl mode s ⟨QueueOutcome.empty, r, w⟩ = Except.ok (s, none)) := by
  refine ⟨fun mode s inp s1 o h => ?_, fun mode s inputs s1 outs h =>
    runCtl_total mode inputs s s1 outs h, fun mode s r w => rfl⟩
  have ht := stepCtl_total mode s inp s1 o h
  refine ⟨ht, ?_⟩
  rw [ht]
  split <;> omega

theorem C4_total_strobe_count_witness :
    WState.total_strobe_count ⟨3, 0, 2⟩ =
      WState.total_strobe_count ⟨1, 0, 0⟩ +
        (List.filter (fun inp => inp.outcome == QueueOutcome.event)
          ([⟨QueueOutcome.event, true, true⟩, ⟨QueueOutcome.empty, true, true⟩,
            ⟨QueueOutcome.event, true, true⟩] : List IterInput)).length :=
  C4_total_strobe_count.2.1 Mode.byte0 ⟨1, 0, 0⟩
    [⟨QueueOutcome.event, true, true⟩, ⟨QueueOutcome.empty, true, true⟩,
      ⟨QueueOutcome.event, true, true⟩] ⟨3, 0, 2⟩ [[1, 0, 0, 0], [2, 0, 0, 0]] rfl

/-- C5: when the queue wait raises the transient GPIO "not set up"
RuntimeError and the re-run of the GPIO setup succeeds, the iteration
leaves Counter, LaneIndex and TotalStrobeCount unchanged, transmits
nothing, and is not fatal — in both workers. -/
theorem C5_transient_fault_recovery :
    (∀ mode s w, stepCtl mode s ⟨QueueOutcome.gpioNotSetup, true, w⟩ =
        Except.ok (s, none))
    ∧ (∀ s w, stepSimple s ⟨QueueOutcome.gpioNotSetup, true, w⟩ =
        Except.ok (s, none)) :=
  ⟨fun mode s w => rfl, fun s w => rfl⟩

/-- C6 counterexample: a RuntimeError from the queue wait whose message
does not contain the GPIO "not set up" marker is re-raised by the worker
(`raise` at line 109) — a post-startup fault that terminates the worker
and is not setup exhaustion, refuting the claim that setup exhaustion is
the only fatal condition. -/
theorem C6_counterexample :
    stepCtl Mode.byte0 ⟨1, 0, 0⟩ ⟨QueueOutcome.otherRuntime, true, true⟩ =
      Except.error Fault.reraisedRuntime ∧
    Fault.reraisedRuntime ≠ Fault.setupExhausted :=
  ⟨rfl, by decide⟩

/-- C6 (amended): after successful startup the worker recovers from queue
timeouts and from the transient GPIO fault when re-setup succeeds, but an
iteration is fatal exactly when the queue wait raises a RuntimeError
without the "setup() the GPIO channel first" marker (re-raised), or the
in-loop GPIO re-setup exhausts its retries, or the 4-byte serial write
raises; setup exhaustion is the only fault surfaced as the setup error,
but not the only fatal condition. -/
theorem C6_fault_propagation (mode : Mode) (s : WState) (inp : IterInput)
    (hc : s.payload_value ≤ 255) (hl : s.byte_lane_index ≤ 3) :
    (isFatal (stepCtl mode s inp) = true ↔
      inp.outcome = QueueOutcome.otherRuntime
      ∨ (inp.outcome = QueueOutcome.gpioNotSetup ∧ inp.reinit_ok = false)
      ∨ (inp.outcome = QueueOutcome.event ∧ inp.write_ok = false))
    ∧ (stepCtl mode s inp = Except.error Fault.setupExhausted ↔
        inp.outcome = QueueOutcome.gpioNotSetup ∧ inp.reinit_ok = false) := by
  cases houtcome : inp.outcome with
  | event =>
      have hv : val32 mode s < 2 ^ 32 := val32_lt mode s hc hl
      have hbytes := toBytesLittle_eq_of_lt (val32 mode s) hv
      have hstep : stepCtl mode s inp =
          if inp.write_ok then
            Except.ok (advanceCounter mode
              { s with total_strobe_count := s.total_strobe_count + 1 },
              some [val32 mode s % 256, val32 mode s / 256 % 256,
                val32 mode s / 65536 % 256, val32 mode s / 16777216 % 256])
          else Except.error Fault.writeError := by
        simp only [stepCtl, houtcome, val32_total_irrelevant, hbytes]
      by_cases hw : inp.write_ok <;>
        simp [hstep, hw, isFatal, houtcome]
  | empty =>
      simp [stepCtl, houtcome, isFatal]
  | gpioNotSetup =>
      by_cases hr : inp.reinit_ok <;>
        simp [stepCtl, houtcome, hr, isFatal]
  | otherRuntime =>
      simp [stepCtl, houtcome, isFatal]

theorem C6_fault_propagation_witness :
    isFatal (stepCtl Mode.byte0 ⟨1, 0, 0⟩ ⟨QueueOutcome.event, true, false⟩) = true ↔
      (QueueOutcome.event = QueueOutcome.otherRuntime
      ∨ (QueueOutcome.event = QueueOutcome.gpioNotSetup ∧ true = false)
      ∨ (QueueOutcome.event = QueueOutcome.event ∧ false = false)) :=
  (C6_fault_propagation Mode.byte0 ⟨1, 0, 0⟩ ⟨QueueOutcome.event, true, false⟩
    (by decide) (by decide)).1

lemma init_gpio_loop_none (outcomes : ℕ → Bool) :
    ∀ r i, (init_gpio_loop outcomes r i).2 = none ↔
      ∀ j, i ≤ j → j < i + r → outcomes j = false := by
  intro r
  induction r with
  | zero =>
      intro i
      constructor
      · intro _ j h1 h2
        exact ((by omega : False)).elim
      · intro _
        rfl
  | succ r ih =>
      intro i
      by_cases ho : outcomes i
      · simp only [init_gpio_loop, ho, if_true]
        constructor
        · intro h
          cases h
        · intro hall
          have := hall i (le_refl i) (by omega)
          rw [ho] at this
          cases this
      · have ho' : outcomes i = false := Bool.eq_false_iff.mpr ho
        simp only [init_gpio_loop, ho', Bool.false_eq_true, if_false]
        rw [ih (i + 1)]
        constructor
        · intro h j h1 h2
          by_cases hj : j = i
          · rw [hj]
            exact Bool.eq_false_iff.mpr ho
          · exact h j (by omega) (by omega)
        · intro h j h1 h2
          exact h j (by omega) (by omega)

lemma init_gpio_loop_some (outcomes : ℕ → Bool) :
    ∀ r i k, (init_gpio_loop outcomes r i).2 = some k →
      i ≤ k ∧ k < i + r ∧ outcomes k = true ∧
        ∀ j, i ≤ j → j < k → outcomes j = false := by
  intro r
  induction r with
  | zero =>
      intro i k h
      simp [init_gpio_loop] at h
  | succ r ih =>
      intro i k h
      by_cases ho : outcomes i
      · simp only [init_gpio_loop, ho, if_true] at h
        cases h
        exact ⟨le_refl i, by omega, ho, fun j h1 h2 => ((by omega : False)).elim⟩
      · have ho' : outcomes i = false := Bool.eq_false_iff.mpr ho
        simp only [init_gpio_loop, ho', Bool.false_eq_true, if_false] at h
        obtain ⟨h1, h2, h3, h4⟩ := ih (i + 1) k h
        refine ⟨by omega, by omega, h3, fun j hj1 hj2 => ?_⟩
        by_cases hj : j = i
        · rw [hj]
          exact Bool.eq_false_iff.mpr ho
        · exact h4 j (by omega) hj2

lemma init_gpio_loop_sleep (outcomes : ℕ → Bool) :
    ∀ r i d, GpioAction.sleep d ∈ (init_gpio_loop outcomes r i).1 → d = 50 := by
  intro r
  induction r with
  | zero =>
      intro i d h
      simp [init_gpio_loop] at h
  | succ r ih =>
      intro i d h
      by_cases ho : outcomes i
      · simp [init_gpio_loop, ho] at h
      · have ho' : outcomes i = false := Bool.eq_false_iff.mpr ho
        simp [init_gpio_loop, ho', List.mem_cons] at h
        rcases h with h | h
        · exact h
        · exact ih (i + 1) d h

lemma init_gpio_loop_setmode_count (outcomes : ℕ → Bool) :
    ∀ r i, ((init_gpio_loop outcomes r i).1.count GpioAction.setmode) =
      (init_gpio_loop outcomes r i).1.count (GpioAction.setupAttempt false) := by
  intro r
  induction r with
  | zero =>
      intro i
      simp [init_gpio_loop]
  | succ r ih =>
      intro i
      by_cases ho : outcomes i
      · simp [init_gpio_loop, ho, List.count_cons]
      · have ho' : outcomes i = false := Bool.eq_false_iff.mpr ho
        simp only [init_gpio_loop, ho', Bool.false_eq_true, if_false]
        simp [List.count_cons, ih (i + 1)]

/-- C7: the GPIO setup routine retries registration up to 20 attempts
with a fixed 50 ms backoff, cleaning up and re-entering setmode before
each retry; it raises the fatal setup RuntimeError if and only if all 20
attempts fail, and on the first successful attempt it returns at once
(every earlier attempt having failed). -/
theorem C7_gpio_setup_retry_policy (outcomes : ℕ → Bool) :
    ((init_gpio outcomes 20).2 = none ↔ ∀ i < 20, outcomes i = false)
    ∧ (∀ k, (init_gpio outcomes 20).2 = some k →
        k < 20 ∧ outcomes k = true ∧ ∀ j < k, outcomes j = false)
    ∧ (∀ d, GpioAction.sleep d ∈ (init_gpio outcomes 20).1 → d = 50)
    ∧ (init_gpio outcomes 20).1.count GpioAction.setmode =
        (init_gpio outcomes 20).1.count (GpioAction.setupAttempt false) + 1 := by
  refine ⟨?_, ?_, ?_, ?_⟩
  · rw [show (init_gpio outcomes 20).2 = (init_gpio_loop outcomes 20 0).2 from rfl,
      init_gpio_loop_none outcomes 20 0]
    constructor
    · intro h i hi
      exact h i (by omega) (by omega)
    · intro h j h1 h2
      exact h j (by omega)
  · intro k h
    obtain ⟨h1, h2, h3, h4⟩ := init_gpio_loop_some outcomes 20 0 k h
    exact ⟨by omega, h3, fun j hj => h4 j (by omega) hj⟩
  · intro d h
    have hmem : GpioAction.sleep d ∈ (init_gpio_loop outcomes 20 0).1 := by
      simp only [init_gpio, List.mem_cons] at h
      rcases h with h | h | h | h
      · cases h
      · cases h
      · cases h
      · exact h
    exact init_gpio_loop_sleep outcomes 20 0 d hmem
  · simp only [init_gpio, List.count_cons]
    simp [init_gpio_loop_setmode_count outcomes 20 0]

theorem C7_gpio_setup_retry_policy_witness :
    2 < 20 ∧ (fun i : ℕ => i == 2) 2 = true :=
  ⟨((C7_gpio_setup_retry_policy (fun i => i == 2)).2.1 2 rfl).1,
   ((C7_gpio_setup_retry_policy (fun i => i == 2)).2.1 2 rfl).2.1⟩

/-- C8: every transmission of the controlled worker writes exactly 4
bytes, each a valid byte value, and the bytes are the LSB-first
(little-endian) encoding of the 32-bit payload derived from the current
Counter, LaneIndex and Mode — nothing else is added to the frame. -/
theorem C8_transmission_format (mode : Mode) (s : WState) (inp : IterInput)
    (s1 : WState) (bs : List ℕ)
    (hc : s.payload_value ≤ 255) (hl : s.byte_lane_index ≤ 3)
    (h : stepCtl mode s inp = Except.ok (s1, some bs)) :
    bs.length = 4 ∧ (∀ b ∈ bs, b < 256) ∧ decodeLittle bs = val32 mode s := by
  cases houtcome : inp.outcome with
  | empty => simp [stepCtl, houtcome] at h
  | otherRuntime => simp [stepCtl, houtcome] at h
  | gpioNotSetup =>
      by_cases hr : inp.reinit_ok <;> simp [stepCtl, houtcome, hr] at h
  | event =>
      have hv : val32 mode s < 2 ^ 32 := val32_lt mode s hc hl
      have hbytes := toBytesLittle_eq_of_lt (val32 mode s) hv
      have hstep : stepCtl mode s inp =
          if inp.write_ok then
            Except.ok (advanceCounter mode
              { s with total_strobe_count := s.total_strobe_count + 1 },
              some [val32 mode s % 256, val32 mode s / 256 % 256,
                val32 mode s / 65536 % 256, val32 mode s / 16777216 % 256])
          else Except.error Fault.writeError := by
        simp only [stepCtl, houtcome, val32_total_irrelevant, hbytes]
      rw [hstep] at h
      by_cases hw : inp.write_ok
      · simp only [hw, if_true, Except.ok.injEq, Prod.mk.injEq, Option.some.injEq] at h
        obtain ⟨hs1, hbs⟩ := h
        subst hbs
        refine ⟨rfl, ?_, decodeLittle_bytes (val32 mode s) hv⟩
        intro b hb
        simp only [List.mem_cons, List.not_mem_nil, or_false] at hb
        rcases hb with hb | hb | hb | hb <;>
          (subst hb; exact Nat.mod_lt _ (by norm_num))
      · simp [hw] at h

theorem C8_transmission_format_witness :
    List.length [3, 3, 3, 3] = 4 ∧ decodeLittle [3, 3, 3, 3] = val32 Mode.all ⟨3, 0, 0⟩ :=
  ⟨(C8_transmission_format Mode.all ⟨3, 0, 0⟩ ⟨QueueOutcome.event, true, true⟩
      ⟨4, 0, 1⟩ [3, 3, 3, 3] (by decide) (by decide) rfl).1,
   (C8_transmission_format Mode.all ⟨3, 0, 0⟩ ⟨QueueOutcome.event, true, true⟩
      ⟨4, 0, 1⟩ [3, 3, 3, 3] (by decide) (by decide) rfl).2.2⟩

lemma stepCtl_byte0_proj (s : WState) (inp : IterInput) :
    (stepCtl Mode.byte0 s inp).map (fun p => (projState p.1, p.2)) =
      stepSimple (projState s) inp := by
  cases houtcome : inp.outcome with
  | empty => simp [stepCtl, stepSimple, houtcome, Except.map, projState]
  | otherRuntime => simp [stepCtl, stepSimple, houtcome, Except.map]
  | gpioNotSetup =>
      by_cases hr : inp.reinit_ok <;>
        simp [stepCtl, stepSimple, houtcome, hr, Except.map, projState]
  | event =>
      simp only [stepCtl, stepSimple, houtcome, val32, get_payload_byte0]
      cases hB : toBytesLittle 4 s.payload_value with
      | none => simp [Except.map, projState, hB]
      | some data_bytes =>
          by_cases hw : inp.write_ok
          · simp only [hw, if_true, Except.map]
            by_cases hp : s.payload_value + 1 > 255 <;>
              simp [advanceCounter, projState, hp, hB]
          · simp [hw, Except.map, projState, hB]

/-- C9: the tm_test.py worker is the byte0-mode specialization of the
tm_test_controlled.py worker: from any initial state and for every
sequence of per-iteration environment inputs, the two runs produce the
same fault or the same transmitted byte sequences and the same final
Counter and TotalStrobeCount (the lane index being irrelevant in byte0
mode). -/
theorem C9_byte0_refinement (s : WState) (inputs : List IterInput) :
    mapProj (runCtl Mode.byte0 s inputs) = runSimple (projState s) inputs := by
  induction inputs generalizing s with
  | nil => rfl
  | cons inp rest ih =>
      have hstep := stepCtl_byte0_proj s inp
      simp only [runCtl, runSimple]
      cases hS : stepCtl Mode.byte0 s inp with
      | error f =>
          rw [hS] at hstep
          rw [← hstep]
          simp [mapProj, Except.map]
      | ok p =>
          obtain ⟨s2, sent⟩ := p
          rw [hS] at hstep
          rw [← hstep]
          simp only [Except.map]
          cases hR : runCtl Mode.byte0 s2 rest with
          | error f =>
              have hr := ih s2
              rw [hR] at hr
              rw [← hr]
              simp [mapProj]
          | ok q =>
              obtain ⟨s3, outs⟩ := q
              have hr := ih s2
              rw [hR] at hr
              rw [← hr]
              simp [mapProj]

/-- C10: for every counter in [1,255], lane in [0,3] and any mode, the
derived payload is strictly below 2^32, so the conversion to 4
little-endian bytes is total and never raises the OverflowError. -/
theorem C10_payload_fits_32bit (mode : Mode) (c l t : ℕ)
    (hc1 : 1 ≤ c) (hc : c ≤ 255) (hl : l ≤ 3) :
    val32 mode ⟨c, l, t⟩ < 2 ^ 32 ∧
    (toBytesLittle 4 (val32 mode ⟨c, l, t⟩)).isSome = true := by
  have hv := val32_lt mode ⟨c, l, t⟩ hc hl
  refine ⟨hv, ?_⟩
  rw [toBytesLittle_eq_of_lt _ hv]
  rfl

theorem C10_payload_fits_32bit_witness :
    val32 Mode.scan ⟨255, 3, 0⟩ < 2 ^ 32 ∧
    (toBytesLittle 4 (val32 Mode.scan ⟨255, 3, 0⟩)).isSome = true :=
  C10_payload_fits_32bit Mode.scan 255 3 0 (by decide) (by decide) (by decide)
